import Mathlib

/-
Verification of the retrieve-then-rerank component in reranker.py.

The two external services (the OpenSearch client and the Bedrock Cohere
rerank endpoint) are modelled as function parameters; the embedding covers
the pure logic of search_opensearch, rerank_with_cohere and
search_and_rerank, with relevance scores as exact rationals and field maps
as association lists.
-/

namespace CohereReranker

/-- A document record as built by search_opensearch from one OpenSearch hit
(dict literal at lines 83-87 of reranker.py): keys id, score, source. -/
structure Document where
  id : String
  score : ℚ
  source : List (String × String)
deriving DecidableEq, Repr

/-- One hit of the OpenSearch response, carrying the identifier, the
retrieval score and the field map that search_opensearch reads. -/
structure Hit where
  hit_id : String
  hit_score : ℚ
  hit_source : List (String × String)
deriving DecidableEq, Repr

/-- The search request body built in search_opensearch: a multi_match query
over all fields together with the requested size. -/
structure SearchBody where
  query : String
  size : ℕ
deriving DecidableEq, Repr

/-- A search response, flattened to its list of hits. -/
structure SearchResponse where
  hits : List Hit
deriving DecidableEq, Repr

/-- Failure of the retrieval stage: the OpenSearch client raises and the
exception propagates (the source has no try/except around the call). -/
inductive RetrievalError where
  | unreachable
  | malformedResponse
  | indexNotFound
deriving DecidableEq, Repr

/-- Failure of the rerank stage: a failed service call, a malformed
response body, or a list index that the reconciliation loop cannot
resolve (IndexError at documents[result.index]). -/
inductive RerankError where
  | serviceUnreachable
  | malformedResponse
  | indexOutOfRange (i : Int)
deriving DecidableEq, Repr

/-- One element of the rerank response results list: a positional index
into the candidate sequence and a relevance score. -/
structure RerankEntry where
  index : Int
  relevance_score : ℚ
deriving DecidableEq, Repr

/-- The rerank response body: an ordered list of results. -/
structure RerankResponse where
  results : List RerankEntry
deriving DecidableEq, Repr

/-- The request body sent to the rerank service (lines 112-117 of
reranker.py): query, candidate texts, top_n and api_version 2. -/
structure RerankRequest where
  query : String
  documents : List String
  top_n : ℕ
  api_version : ℕ
deriving DecidableEq, Repr

/-- A reranked record as built in rerank_with_cohere (dict literal at
lines 134-139 of reranker.py): keys id, original_score, rerank_score,
source. -/
structure RerankResult where
  id : String
  original_score : ℚ
  rerank_score : ℚ
  source : List (String × String)
deriving DecidableEq, Repr

/-- Python list subscription xs[i]: a negative index addresses from the
end of the list; an index out of bounds on either side is an IndexError,
returned here as none. -/
def pyGetElem {α : Type} (xs : List α) (i : Int) : Option α :=
  let j : Int := if i < 0 then (xs.length : Int) + i else i
  if h : 0 ≤ j ∧ j.toNat < xs.length then some (xs.get ⟨j.toNat, h.2⟩) else none

/-- Python dict .get with a default: the value under the key if present,
the default otherwise. -/
def dictGetD (d : List (String × String)) (key dflt : String) : String :=
  match d.lookup key with
  | some v => v
  | none => dflt

/-- The candidate-text extraction loop of rerank_with_cohere (lines
105-109): for each document, the value of the full_text field of its
source map, or the empty string when the field is absent. -/
def extract_doc_texts (documents : List Document) : List String :=
  documents.map (fun doc => dictGetD doc.source "full_text" "")

/-- The record appended per rerank result (lines 134-139): the original
document joined with the service relevance score. -/
def mkRerankResult (original_doc : Document) (result : RerankEntry) : RerankResult :=
  { id := original_doc.id
    original_score := original_doc.score
    rerank_score := result.relevance_score
    source := original_doc.source }

/-- The reconciliation loop of rerank_with_cohere (lines 131-139): for each
result in order, look up documents[result.index] with Python list indexing
and append the joined record; a failed lookup raises IndexError and
discards the partial output. -/
def reconcile (documents : List Document) : List RerankEntry → Except RerankError (List RerankResult)
  | [] => .ok []
  | result :: rest =>
    match pyGetElem documents result.index with
    | none => .error (.indexOutOfRange result.index)
    | some original_doc =>
      match reconcile documents rest with
      | .ok tail => .ok (mkRerankResult original_doc result :: tail)
      | .error e => .error e

/-- rerank_with_cohere (lines 91-141): extract the candidate texts, send
the request body with api_version 2 to the rerank service, and reconcile
the returned indices back onto the input documents. The Bedrock call is
the service parameter; its failures (unreachable endpoint, malformed JSON)
surface as errors. -/
def rerank_with_cohere (service : RerankRequest → Except RerankError RerankResponse)
    (query : String) (documents : List Document) (top_n : ℕ) :
    Except RerankError (List RerankResult) :=
  let doc_texts := extract_doc_texts documents
  let request_body : RerankRequest :=
    { query := query, documents := doc_texts, top_n := top_n, api_version := 2 }
  match service request_body with
  | .error e => .error e
  | .ok response_body => reconcile documents response_body.results

/-- search_opensearch (lines 55-89): build the search body, issue one call
to the OpenSearch client for the configured index, and map each hit to a
document record with keys id, score, source. Client failures propagate
unchanged; there is no retry. -/
def search_opensearch (client : String → SearchBody → Except RetrievalError SearchResponse)
    (index_name : String) (query : String) (size : ℕ) :
    Except RetrievalError (List Document) :=
  let search_body : SearchBody := { query := query, size := size }
  match client index_name search_body with
  | .error e => .error e
  | .ok response =>
    .ok (response.hits.map (fun hit =>
      { id := hit.hit_id, score := hit.hit_score, source := hit.hit_source }))

/-- Failure of either stage of the pipeline, kept apart so that each
exception propagates with its identity. -/
inductive PipelineError where
  | retrieval (e : RetrievalError)
  | rerank (e : RerankError)
deriving DecidableEq, Repr

/-- The record returned by search_and_rerank (lines 163-167): the query
together with the original and the reranked result sequences. -/
structure SearchAndRerankOutput where
  query : String
  original_results : List Document
  reranked_results : List RerankResult
deriving DecidableEq, Repr

/-- search_and_rerank (lines 143-167): search, pass the full result list
unmodified to the reranker, and return both sequences with the query. -/
def search_and_rerank (client : String → SearchBody → Except RetrievalError SearchResponse)
    (service : RerankRequest → Except RerankError RerankResponse)
    (index_name : String) (query : String) (initial_size top_n : ℕ) :
    Except PipelineError SearchAndRerankOutput :=
  match search_opensearch client index_name query initial_size with
  | .error e => .error (.retrieval e)
  | .ok original_docs =>
    match rerank_with_cohere service query original_docs top_n with
    | .error e => .error (.rerank e)
    | .ok reranked_docs =>
      .ok { query := query, original_results := original_docs, reranked_results := reranked_docs }

/-- search_and_rerank at the default arguments of its signature,
initial_size=20 and top_n=10 (line 143). -/
def search_and_rerank_defaults (client : String → SearchBody → Except RetrievalError SearchResponse)
    (service : RerankRequest → Except RerankError RerankResponse)
    (index_name : String) (query : String) :
    Except PipelineError SearchAndRerankOutput :=
  search_and_rerank client service index_name query 20 10

/-- A JSON-like value, enough to state which keys the serialized output
records carry. -/
inductive JsonVal where
  | str (s : String)
  | num (q : ℚ)
  | obj (fields : List (String × JsonVal))
deriving Repr

/-- The field map serialized as a JSON object. -/
def sourceToJson (src : List (String × String)) : JsonVal :=
  .obj (src.map (fun kv => (kv.1, .str kv.2)))

/-- The dict serialized for a document record, exactly the literal of
lines 83-87: keys id, score, source. -/
def Document.toDict (d : Document) : List (String × JsonVal) :=
  [("id", .str d.id), ("score", .num d.score), ("source", sourceToJson d.source)]

/-- The dict serialized for a reranked record, exactly the literal of
lines 134-139: keys id, original_score, rerank_score, source. -/
def RerankResult.toDict (r : RerankResult) : List (String × JsonVal) :=
  [("id", .str r.id), ("original_score", .num r.original_score),
   ("rerank_score", .num r.rerank_score), ("source", sourceToJson r.source)]

/-- Follows the words of the spec data model (section 3): the field names
the spec prescribes for a serialized Document record. -/
def specDocumentFieldNames : List String := ["id", "relevance_score", "fields"]

/-- Follows the words of the spec data model (section 3): the field names
the spec prescribes for a serialized RerankResult record. -/
def specRerankResultFieldNames : List String :=
  ["id", "original_score", "rerank_score", "fields"]

/-- An index the rerank service may legitimately return: within
0..len(documents)-1. -/
def validIndex (documents : List Document) (r : RerankEntry) : Prop :=
  0 ≤ r.index ∧ r.index < (documents.length : Int)

/-- The documented contract of the rerank service: it returns
min(top_n, number of candidates) results, every index in range. -/
def serviceConforms (documents : List Document) (top_n : ℕ) (response : RerankResponse) : Prop :=
  response.results.length = min top_n documents.length ∧
  ∀ r ∈ response.results, validIndex documents r

/-- Stub rerank service returning identity ordering: index i for the i-th
candidate, with descending synthetic scores. -/
def identityStub (req : RerankRequest) : Except RerankError RerankResponse :=
  .ok ⟨(List.range req.documents.length).map
        (fun (i : ℕ) => ⟨(i : Int), ((req.documents.length - i : ℕ) : ℚ)⟩)⟩

/-- Deciding whether an entry carries an in-range index. -/
instance (documents : List Document) (r : RerankEntry) : Decidable (validIndex documents r) := by
  unfold validIndex
  exact inferInstance

/-- Deciding conformance of a concrete response. -/
instance (documents : List Document) (top_n : ℕ) (response : RerankResponse) :
    Decidable (serviceConforms documents top_n response) := by
  unfold serviceConforms
  exact inferInstance

/-- A two-document corpus used to instantiate the theorems below. -/
def exampleDocuments : List Document :=
  [{ id := "a", score := 1, source := [("full_text", "cats")] },
   { id := "b", score := 9/10, source := [("full_text", "dogs")] }]

/-- A corpus whose first document lacks the full_text field. -/
def exampleMixedDocuments : List Document :=
  [{ id := "a", score := 1, source := [("title", "t")] },
   { id := "b", score := 9/10, source := [("full_text", "dogs")] }]

lemma pyGetElem_eq_getElem? {α : Type} (xs : List α) (i : Int) (h0 : 0 ≤ i) :
    pyGetElem xs i = xs[i.toNat]? := by
  have hneg : ¬ i < 0 := by omega
  by_cases hlt : i.toNat < xs.length
  · simp only [pyGetElem, hneg, if_false]
    rw [dif_pos ⟨h0, hlt⟩, List.getElem?_eq_getElem hlt]
    rfl
  · simp only [pyGetElem, hneg, if_false]
    rw [dif_neg (fun hc => hlt hc.2), List.getElem?_eq_none (Nat.le_of_not_lt hlt)]

lemma reconcile_ok_length (documents : List Document) :
    ∀ (rs : List RerankEntry) (out : List RerankResult),
      reconcile documents rs = .ok out → out.length = rs.length := by
  intro rs
  induction rs with
  | nil =>
    intro out h
    simp only [reconcile] at h
    injection h with h
    simp [← h]
  | cons r rest ih =>
    intro out h
    simp only [reconcile] at h
    cases hpy : pyGetElem documents r.index with
    | none => rw [hpy] at h; cases h
    | some d =>
      rw [hpy] at h
      cases hrec : reconcile documents rest with
      | error e => rw [hrec] at h; cases h
      | ok tail =>
        rw [hrec] at h
        injection h with h
        rw [← h]
        simp [ih tail hrec]

lemma reconcile_ok_getElem (documents : List Document) :
    ∀ (rs : List RerankEntry) (out : List RerankResult),
      reconcile documents rs = .ok out →
      ∀ (k : ℕ) (r : RerankEntry), rs[k]? = some r →
        ∃ d, pyGetElem documents r.index = some d ∧
          out[k]? = some (mkRerankResult d r) := by
  intro rs
  induction rs with
  | nil =>
    intro out h k r hk
    simp at hk
  | cons r0 rest ih =>
    intro out h k r hk
    simp only [reconcile] at h
    cases hpy : pyGetElem documents r0.index with
    | none => rw [hpy] at h; cases h
    | some d =>
      rw [hpy] at h
      cases hrec : reconcile documents rest with
      | error e => rw [hrec] at h; cases h
      | ok tail =>
        rw [hrec] at h
        injection h with h
        subst h
        cases k with
        | zero =>
          simp only [List.getElem?_cons_zero, Option.some.injEq] at hk
          subst hk
          exact ⟨d, hpy, by simp⟩
        | succ k =>
          simp only [List.getElem?_cons_succ] at hk ⊢
          exact ih tail hrec k r hk

lemma reconcile_ok_of_valid (documents : List Document) :
    ∀ (rs : List RerankEntry), (∀ r ∈ rs, validIndex documents r) →
      ∃ out, reconcile documents rs = .ok out := by
  intro rs
  induction rs with
  | nil => exact fun _ => ⟨[], rfl⟩
  | cons r rest ih =>
    intro hvalid
    have hr := hvalid r (List.mem_cons_self r rest)
    obtain ⟨tail, htail⟩ := ih (fun x hx => hvalid x (List.mem_cons_of_mem _ hx))
    have hlt : r.index.toNat < documents.length := by
      have h1 := hr.1
      have h2 := hr.2
      omega
    have hpy : pyGetElem documents r.index = some (documents.get ⟨r.index.toNat, hlt⟩) := by
      rw [pyGetElem_eq_getElem? documents r.index hr.1,
        List.getElem?_eq_getElem hlt]
      rfl
    exact ⟨mkRerankResult (documents.get ⟨r.index.toNat, hlt⟩) r :: tail, by
      simp only [reconcile, hpy, htail]⟩

lemma extract_doc_texts_length (documents : List Document) :
    (extract_doc_texts documents).length = documents.length := by
  simp [extract_doc_texts]

lemma extract_doc_texts_getElem? (documents : List Document) (i : ℕ) :
    (extract_doc_texts documents)[i]? =
      (documents[i]?).map (fun d => dictGetD d.source "full_text" "") := by
  simp [extract_doc_texts]

/-- C1: for every documents sequence and every rerank-service response
whose indices are in range, rerank_with_cohere succeeds, the output has
one element per response result in the same returned order (never
re-sorted), and the element at position k is the join of
documents[results[k].index]: same id and field map, original_score the
retrieval score of that document, rerank_score the relevance score at
position k of the response. -/
theorem rerank_reconciliation_and_order (query : String) (top_n : ℕ)
    (documents : List Document) (response : RerankResponse)
    (hidx : ∀ r ∈ response.results, validIndex documents r) :
    ∃ out, rerank_with_cohere (fun _ => .ok response) query documents top_n = .ok out ∧
      out.length = response.results.length ∧
      ∀ (k : ℕ) (r : RerankEntry), response.results[k]? = some r →
        ∃ d, documents[r.index.toNat]? = some d ∧
          out[k]? = some { id := d.id, original_score := d.score,
                           rerank_score := r.relevance_score, source := d.source } := by
  obtain ⟨out, hout⟩ := reconcile_ok_of_valid documents response.results hidx
  refine ⟨out, hout, reconcile_ok_length documents _ _ hout, ?_⟩
  intro k r hk
  obtain ⟨d, hd, hget⟩ := reconcile_ok_getElem documents _ _ hout k r hk
  have h0 : 0 ≤ r.index := (hidx r (List.getElem?_mem hk)).1
  refine ⟨d, ?_, hget⟩
  rw [← pyGetElem_eq_getElem? documents r.index h0]
  exact hd

/-- Witness for C1 at a concrete two-element response over the example
corpus. -/
theorem rerank_reconciliation_and_order_witness :
    ∃ out, rerank_with_cohere (fun _ => .ok ⟨[⟨1, 1/2⟩, ⟨0, 1/4⟩]⟩)
        "q" exampleDocuments 2 = .ok out ∧
      out.length = 2 := by
  obtain ⟨out, h1, h2, h3⟩ :=
    rerank_reconciliation_and_order "q" 2 exampleDocuments
      ⟨[⟨1, 1/2⟩, ⟨0, 1/4⟩]⟩ (by decide)
  exact ⟨out, h1, h2⟩

/-- C2: the service response below carries index -1, which is outside
0..len-1 for the two-document corpus; rerank_with_cohere does not fail
there: Python list subscription resolves -1 to the last document, which
is silently substituted, while the nonnegative out-of-range index 2 does
fail with the index error. -/
theorem rerank_negative_index_silent_substitution :
    rerank_with_cohere (fun _ => .ok ⟨[⟨-1, 1/2⟩]⟩) "q" exampleDocuments 1 =
      .ok [{ id := "b", original_score := 9/10, rerank_score := 1/2,
             source := [("full_text", "dogs")] }] ∧
    rerank_with_cohere (fun _ => .ok ⟨[⟨2, 1/2⟩]⟩) "q" exampleDocuments 1 =
      .error (.indexOutOfRange 2) := by
  constructor <;> rfl

/-- C3: with nonempty documents, top_n at most the corpus size, and a
response meeting the documented service contract, the output length is
exactly min(top_n, len(documents)), which equals top_n. -/
theorem rerank_output_length (query : String) (documents : List Document) (top_n : ℕ)
    (response : RerankResponse)
    (_hne : documents ≠ []) (htop : top_n ≤ documents.length)
    (hconf : serviceConforms documents top_n response) :
    ∃ out, rerank_with_cohere (fun _ => .ok response) query documents top_n = .ok out ∧
      out.length = min top_n documents.length ∧ out.length = top_n := by
  obtain ⟨out, hout⟩ := reconcile_ok_of_valid documents response.results hconf.2
  have hlen := reconcile_ok_length documents _ _ hout
  have hmin := hconf.1
  refine ⟨out, hout, ?_, ?_⟩ <;> omega

/-- Witness for C3 with top_n = 1 over the two-document corpus. -/
theorem rerank_output_length_witness :
    ∃ out, rerank_with_cohere (fun _ => .ok ⟨[⟨0, 1/2⟩]⟩) "q" exampleDocuments 1 = .ok out ∧
      out.length = min 1 exampleDocuments.length ∧ out.length = 1 :=
  rerank_output_length "q" exampleDocuments 1 ⟨[⟨0, 1/2⟩]⟩
    (by decide) (by decide) (by decide)

/-- C4: candidate extraction is total and index-aligned with the input:
rerank_with_cohere sends the service exactly this candidate list, and the
candidate at position i is the full value of the full_text field of
documents[i] when that field is present, and the empty string when it is
absent — a missing field never fails the call. -/
theorem rerank_missing_field_empty_candidate (documents : List Document) :
    (extract_doc_texts documents).length = documents.length ∧
    (∀ (service : RerankRequest → Except RerankError RerankResponse)
       (query : String) (top_n : ℕ),
      rerank_with_cohere service query documents top_n =
        match service { query := query, documents := extract_doc_texts documents,
                        top_n := top_n, api_version := 2 } with
        | .error e => .error e
        | .ok response_body => reconcile documents response_body.results) ∧
    ∀ (i : ℕ) (d : Document), documents[i]? = some d →
      (extract_doc_texts documents)[i]? =
        some (match d.source.lookup "full_text" with
              | some v => v
              | none => "") := by
  refine ⟨extract_doc_texts_length documents, fun _ _ _ => rfl, ?_⟩
  intro i d hd
  rw [extract_doc_texts_getElem?, hd]
  rfl

/-- Witness for C4 on a corpus whose first document lacks full_text: that
document contributes the empty string, the second its full text. -/
theorem rerank_missing_field_empty_candidate_witness :
    (extract_doc_texts exampleMixedDocuments)[0]? = some "" ∧
    (extract_doc_texts exampleMixedDocuments)[1]? = some "dogs" := by
  have h := rerank_missing_field_empty_candidate exampleMixedDocuments
  constructor
  · have h0 := h.2.2 0 { id := "a", score := 1, source := [("title", "t")] } (by rfl)
    exact h0
  · have h1 := h.2.2 1 { id := "b", score := 9/10, source := [("full_text", "dogs")] } (by rfl)
    exact h1

/-- A stub search client returning one fixed hit, used to instantiate the
pipeline theorems. -/
def stubClient : String → SearchBody → Except RetrievalError SearchResponse :=
  fun _ _ => .ok ⟨[{ hit_id := "a", hit_score := 1, hit_source := [("full_text", "cats")] }]⟩

/-- A search client that always fails with a missing index. -/
def failingClient : String → SearchBody → Except RetrievalError SearchResponse :=
  fun _ _ => .error .indexNotFound

lemma search_and_rerank_retrieval_error
    (client : String → SearchBody → Except RetrievalError SearchResponse)
    (service : RerankRequest → Except RerankError RerankResponse)
    (index_name query : String) (initial_size top_n : ℕ) (e : RetrievalError)
    (hs : search_opensearch client index_name query initial_size = .error e) :
    search_and_rerank client service index_name query initial_size top_n =
      .error (.retrieval e) := by
  unfold search_and_rerank
  rw [hs]

lemma search_and_rerank_rerank_error
    (client : String → SearchBody → Except RetrievalError SearchResponse)
    (service : RerankRequest → Except RerankError RerankResponse)
    (index_name query : String) (initial_size top_n : ℕ)
    (docs : List Document) (e : RerankError)
    (hs : search_opensearch client index_name query initial_size = .ok docs)
    (hr : rerank_with_cohere service query docs top_n = .error e) :
    search_and_rerank client service index_name query initial_size top_n =
      .error (.rerank e) := by
  unfold search_and_rerank
  rw [hs]
  show ((match rerank_with_cohere service query docs top_n with
    | Except.error e => Except.error (PipelineError.rerank e)
    | Except.ok reranked_docs =>
      Except.ok { query := query, original_results := docs,
                  reranked_results := reranked_docs }) :
    Except PipelineError SearchAndRerankOutput) =
    Except.error (PipelineError.rerank e)
  rw [hr]

lemma search_and_rerank_ok
    (client : String → SearchBody → Except RetrievalError SearchResponse)
    (service : RerankRequest → Except RerankError RerankResponse)
    (index_name query : String) (initial_size top_n : ℕ)
    (docs : List Document) (rr : List RerankResult)
    (hs : search_opensearch client index_name query initial_size = .ok docs)
    (hr : rerank_with_cohere service query docs top_n = .ok rr) :
    search_and_rerank client service index_name query initial_size top_n =
      .ok ⟨query, docs, rr⟩ := by
  unfold search_and_rerank
  rw [hs]
  show ((match rerank_with_cohere service query docs top_n with
    | Except.error e => Except.error (PipelineError.rerank e)
    | Except.ok reranked_docs =>
      Except.ok { query := query, original_results := docs,
                  reranked_results := reranked_docs }) :
    Except PipelineError SearchAndRerankOutput) =
    Except.ok ⟨query, docs, rr⟩
  rw [hr]

/-- C5: search_and_rerank is the pure composition of the two stages: it
succeeds exactly when retrieval yields a document list that is passed
unmodified to the reranker and the reranker succeeds on it, the returned
record being the query with both sequences; a failure of either stage
propagates as that stage's error; and the default arguments are
initial_size = 20 and top_n = 10. -/
theorem search_and_rerank_composition
    (client : String → SearchBody → Except RetrievalError SearchResponse)
    (service : RerankRequest → Except RerankError RerankResponse)
    (index_name query : String) (initial_size top_n : ℕ) :
    (∀ out, search_and_rerank client service index_name query initial_size top_n = .ok out ↔
      ∃ docs rr, search_opensearch client index_name query initial_size = .ok docs ∧
        rerank_with_cohere service query docs top_n = .ok rr ∧
        out = ⟨query, docs, rr⟩) ∧
    (∀ e, search_opensearch client index_name query initial_size = .error e →
      search_and_rerank client service index_name query initial_size top_n =
        .error (.retrieval e)) ∧
    (∀ docs e, search_opensearch client index_name query initial_size = .ok docs →
      rerank_with_cohere service query docs top_n = .error e →
      search_and_rerank client service index_name query initial_size top_n =
        .error (.rerank e)) ∧
    search_and_rerank_defaults client service index_name query =
      search_and_rerank client service index_name query 20 10 := by
  refine ⟨?_, ?_, ?_, rfl⟩
  · intro out
    constructor
    · intro h
      cases hs : search_opensearch client index_name query initial_size with
      | error e =>
        rw [search_and_rerank_retrieval_error client service index_name query
          initial_size top_n e hs] at h
        cases h
      | ok docs =>
        cases hr : rerank_with_cohere service query docs top_n with
        | error e =>
          rw [search_and_rerank_rerank_error client service index_name query
            initial_size top_n docs e hs hr] at h
          cases h
        | ok rr =>
          rw [search_and_rerank_ok client service index_name query
            initial_size top_n docs rr hs hr] at h
          injection h with h
          exact ⟨docs, rr, rfl, hr, h.symm⟩
    · rintro ⟨docs, rr, hs, hr, rfl⟩
      exact search_and_rerank_ok client service index_name query
        initial_size top_n docs rr hs hr
  · intro e hs
    exact search_and_rerank_retrieval_error client service index_name query
      initial_size top_n e hs
  · intro docs e hs hr
    exact search_and_rerank_rerank_error client service index_name query
      initial_size top_n docs e hs hr

/-- Witness for C5: a successful run of the pipeline over the stub client
and the identity stub service. -/
theorem search_and_rerank_composition_witness :
    search_and_rerank stubClient identityStub "sde-web" "q" 20 10 =
      .ok ⟨"q", [{ id := "a", score := 1, source := [("full_text", "cats")] }],
           [{ id := "a", original_score := 1, rerank_score := 1,
              source := [("full_text", "cats")] }]⟩ :=
  ((search_and_rerank_composition stubClient identityStub "sde-web" "q" 20 10).1
      ⟨"q", [{ id := "a", score := 1, source := [("full_text", "cats")] }],
        [{ id := "a", original_score := 1, rerank_score := 1,
           source := [("full_text", "cats")] }]⟩).mpr
    ⟨[{ id := "a", score := 1, source := [("full_text", "cats")] }],
     [{ id := "a", original_score := 1, rerank_score := 1,
        source := [("full_text", "cats")] }],
     rfl, rfl, rfl⟩

/-- C6 counterexample: at a concrete record, the serialized document dict
carries keys id, score, source — not the spec data-model names id,
relevance_score, fields — and the serialized reranked dict carries key
source, not fields. -/
theorem output_field_names_differ_from_spec :
    (Document.toDict { id := "a", score := 1, source := [] }).map Prod.fst ≠
      specDocumentFieldNames ∧
    (RerankResult.toDict
        { id := "a", original_score := 1, rerank_score := 1, source := [] }).map Prod.fst ≠
      specRerankResultFieldNames := by
  constructor <;> decide

/-- C6 amended: every serialized document record carries exactly the keys
id, score, source, and every serialized reranked record exactly the keys
id, original_score, rerank_score, source. -/
theorem output_field_names_are_code_names (d : Document) (r : RerankResult) :
    (Document.toDict d).map Prod.fst = ["id", "score", "source"] ∧
    (RerankResult.toDict r).map Prod.fst =
      ["id", "original_score", "rerank_score", "source"] :=
  ⟨rfl, rfl⟩

/-- C7: against the identity stub rerank service, the output id sequence
equals the input documents id sequence. -/
theorem rerank_identity_roundtrip (query : String) (top_n : ℕ) (documents : List Document) :
    ∃ out, rerank_with_cohere identityStub query documents top_n = .ok out ∧
      out.map RerankResult.id = documents.map Document.id := by
  have hn : (extract_doc_texts documents).length = documents.length :=
    extract_doc_texts_length documents
  have hres : rerank_with_cohere identityStub query documents top_n =
      reconcile documents ((List.range (extract_doc_texts documents).length).map
        (fun (i : ℕ) =>
          ⟨(i : Int), (((extract_doc_texts documents).length - i : ℕ) : ℚ)⟩)) := rfl
  rw [hn] at hres
  have hvalid : ∀ r ∈ (List.range documents.length).map
      (fun (i : ℕ) => (⟨(i : Int), ((documents.length - i : ℕ) : ℚ)⟩ : RerankEntry)),
      validIndex documents r := by
    intro r hr
    simp only [List.mem_map, List.mem_range] at hr
    obtain ⟨i, hi, rfl⟩ := hr
    refine ⟨show (0 : Int) ≤ (i : Int) by omega,
      show (i : Int) < (documents.length : Int) by omega⟩
  obtain ⟨out, hout⟩ := reconcile_ok_of_valid documents _ hvalid
  have hlen : out.length = documents.length := by
    have := reconcile_ok_length documents _ _ hout
    simpa using this
  refine ⟨out, by rw [hres]; exact hout, List.ext_getElem? ?_⟩
  intro k
  by_cases hk : k < documents.length
  · have hek : ((List.range documents.length).map
        (fun (i : ℕ) => (⟨(i : Int), ((documents.length - i : ℕ) : ℚ)⟩ : RerankEntry)))[k]? =
        some ⟨(k : Int), ((documents.length - k : ℕ) : ℚ)⟩ := by
      simp [List.getElem?_range hk]
    obtain ⟨d, hd, hgot⟩ := reconcile_ok_getElem documents _ _ hout k _ hek
    have hd0 : pyGetElem documents (k : Int) = some d := hd
    have hd' : documents[k]? = some d := by
      rw [pyGetElem_eq_getElem? _ _ (by omega)] at hd0
      simpa using hd0
    rw [List.getElem?_map, List.getElem?_map, hgot, hd']
    rfl
  · have h1 : (List.map RerankResult.id out)[k]? = none := by
      rw [List.getElem?_eq_none]
      simpa [hlen] using Nat.le_of_not_lt hk
    have h2 : (List.map Document.id documents)[k]? = none := by
      rw [List.getElem?_eq_none]
      simpa using Nat.le_of_not_lt hk
    rw [h1, h2]

/-- C8: the end-to-end example: two documents about cats and dogs, query
feline, a service response with the single result index 0 and relevance
score 0.95, and top_n 1 yield exactly one record joining document a with
the new score. -/
theorem rerank_end_to_end_example :
    rerank_with_cohere (fun _ => .ok ⟨[⟨0, 19/20⟩]⟩) "feline" exampleDocuments 1 =
      .ok [{ id := "a", original_score := 1, rerank_score := 19/20,
             source := [("full_text", "cats")] }] := by
  rfl

/-- C9: a failure of the search client on the one issued request — for any
of the failure kinds: unreachable service, malformed response, missing
index — propagates unchanged out of search_opensearch; the client is
consulted exactly once, so no retry can mask the failure. -/
theorem search_opensearch_error_propagation
    (client : String → SearchBody → Except RetrievalError SearchResponse)
    (index_name query : String) (size : ℕ) (e : RetrievalError)
    (h : client index_name { query := query, size := size } = .error e) :
    search_opensearch client index_name query size = .error e := by
  have heq : search_opensearch client index_name query size =
      match client index_name { query := query, size := size } with
      | .error e => .error e
      | .ok response =>
        .ok (response.hits.map (fun hit =>
          { id := hit.hit_id, score := hit.hit_score, source := hit.hit_source })) := rfl
  rw [heq, h]

/-- Witness for C9 with the always-failing client. -/
theorem search_opensearch_error_propagation_witness :
    search_opensearch failingClient "sde-web" "q" 20 = .error .indexNotFound :=
  search_opensearch_error_propagation failingClient "sde-web" "q" 20 .indexNotFound rfl

/-- C10: duplicate indices in the response are not deduplicated: the
output has one record per occurrence, in response order, and any two
occurrences of the same index yield records with the same id, the same
original score and the same field map. -/
theorem rerank_duplicate_index_occurrences (query : String) (top_n : ℕ)
    (documents : List Document) (response : RerankResponse)
    (hidx : ∀ r ∈ response.results, validIndex documents r) :
    ∃ out, rerank_with_cohere (fun _ => .ok response) query documents top_n = .ok out ∧
      out.length = response.results.length ∧
      ∀ (k1 k2 : ℕ) (r1 r2 : RerankEntry),
        response.results[k1]? = some r1 → response.results[k2]? = some r2 →
        r1.index = r2.index →
        ∃ x1 x2, out[k1]? = some x1 ∧ out[k2]? = some x2 ∧
          x1.id = x2.id ∧ x1.original_score = x2.original_score ∧ x1.source = x2.source := by
  obtain ⟨out, hout⟩ := reconcile_ok_of_valid documents response.results hidx
  refine ⟨out, hout, reconcile_ok_length documents _ _ hout, ?_⟩
  intro k1 k2 r1 r2 h1 h2 hsame
  obtain ⟨d1, hd1, hg1⟩ := reconcile_ok_getElem documents _ _ hout k1 r1 h1
  obtain ⟨d2, hd2, hg2⟩ := reconcile_ok_getElem documents _ _ hout k2 r2 h2
  have hdd : d1 = d2 := by
    rw [hsame] at hd1
    rw [hd1] at hd2
    injection hd2
  refine ⟨mkRerankResult d1 r1, mkRerankResult d2 r2, hg1, hg2, ?_, ?_, ?_⟩ <;>
    rw [hdd] <;> rfl

/-- Witness for C10 with index 0 occurring twice over the example corpus. -/
theorem rerank_duplicate_index_occurrences_witness :
    ∃ out, rerank_with_cohere (fun _ => .ok ⟨[⟨0, 1/2⟩, ⟨0, 1/4⟩]⟩)
        "q" exampleDocuments 2 = .ok out ∧
      out.length = 2 := by
  obtain ⟨out, h1, h2, h3⟩ :=
    rerank_duplicate_index_occurrences "q" 2 exampleDocuments
      ⟨[⟨0, 1/2⟩, ⟨0, 1/4⟩]⟩ (by decide)
  exact ⟨out, h1, h2⟩

end CohereReranker
